import Mathlib

/-!
Shallow embedding of the gophyr image-to-ASCII rendering pipeline
(`src/gopher_image.c`) together with theorems checking the natural-language
specification against it.

Modelling conventions:
* C `float` arithmetic on integer data is modelled by exact rational
  arithmetic; where the C code truncates a nonnegative rational to an
  integer (`(int)` / `(uint8_t)` casts) this is expressed with
  natural-number division (e.g. `(int)(32 / ((float)ow / oh))` becomes
  `32 * oh / ow`), and a C float comparison of two integer ratios becomes
  the equivalent cross-multiplied integer comparison.
* C `int` division of possibly negative values is `Int.tdiv`
  (truncation toward zero, the C semantics).
* The external collaborators of the pipeline — the stb_image codec and the
  allocator (`memory_alloc`) — are modelled as oracles (`Codec`,
  `AllocOracle`) describing the outcome of each call the pipeline makes.
* Pixel buffers are `List Rgb` in row-major order, index `y * width + x`;
  out-of-range reads yield the zero pixel and out-of-range writes are
  dropped (they can only occur where the C code would also be out of
  bounds).
* ANSI escape strings carry no information relevant to the claims, so an
  emitted escape is modelled by the color pair (or reset marker) it encodes.
-/

/-- RGB pixel (`rgb_pixel_t`): three 8-bit channels. -/
structure Rgb where
  r : Nat
  g : Nat
  b : Nat
deriving DecidableEq, Repr

/-- The `clamp` helper of the source: clamp an int into `[lo, hi]`. -/
def clampC (v lo hi : Int) : Int :=
  if v < lo then lo else if v > hi then hi else v

/-- Function `rgb_to_gray`: `(uint8_t)(0.299f*r + 0.587f*g + 0.114f*b)` in exact
arithmetic (truncation of the nonnegative weighted sum). -/
def rgb_to_gray (r g b : Nat) : Nat :=
  (299 * r + 587 * g + 114 * b) / 1000

/-- The `terminal_colors` reference RGB table, in enum order
BLACK, RED, GREEN, YELLOW, BLUE, MAGENTA, CYAN, WHITE. -/
def terminal_colors : List Rgb :=
  [⟨0, 0, 0⟩, ⟨170, 0, 0⟩, ⟨0, 170, 0⟩, ⟨170, 170, 0⟩,
   ⟨0, 0, 170⟩, ⟨170, 0, 170⟩, ⟨0, 170, 170⟩, ⟨170, 170, 170⟩]

/-- Reference RGB triple of a terminal color. -/
def paletteRgb (i : Fin 8) : Rgb := terminal_colors.getD i ⟨0, 0, 0⟩

/-- The weighted color distance of `rgb_to_terminal_color`:
`(dr*dr*3 + dg*dg*4 + db*db*2) / 9` in C int arithmetic. -/
def color_distance (r g b : Nat) (i : Fin 8) : Int :=
  let c := paletteRgb i
  let dr : Int := (r : Int) - (c.r : Int)
  let dg : Int := (g : Int) - (c.g : Int)
  let db : Int := (b : Int) - (c.b : Int)
  Int.tdiv (dr * dr * 3 + dg * dg * 4 + db * db * 2) 9

/-- The scan loop of `rgb_to_terminal_color`, carrying the C locals
`best_match` and `min_distance`: a candidate replaces the accumulator
exactly when its distance is strictly below the accumulated minimum. -/
def minScanGo (r g b : Nat) (best : Fin 8) (min_distance : Int) :
    List (Fin 8) → Fin 8
  | [] => best
  | i :: rest =>
    if color_distance r g b i < min_distance then
      minScanGo r g b i (color_distance r g b i) rest
    else minScanGo r g b best min_distance rest

/-- Function `rgb_to_terminal_color`: linear scan over the 8 palette entries keeping
the first entry of strictly smallest distance; `best_match` starts at 0 and
`min_distance` at `255*255*3 = 195075`. -/
def rgb_to_terminal_color (r g b : Nat) : Fin 8 :=
  minScanGo r g b 0 195075 (List.finRange 8)

/-- The `html_markers` table of `looks_like_text_content`, as ASCII byte
lists: `<html`, `<HTML`, `<!DOCTYPE`, `<!doctype`, `<head`, `<HEAD`,
`<body`, `<BODY`, `HTTP/`, `http://`. -/
def html_markers : List (List Nat) :=
  [[60, 104, 116, 109, 108],
   [60, 72, 84, 77, 76],
   [60, 33, 68, 79, 67, 84, 89, 80, 69],
   [60, 33, 100, 111, 99, 116, 121, 112, 101],
   [60, 104, 101, 97, 100],
   [60, 72, 69, 65, 68],
   [60, 98, 111, 100, 121],
   [60, 66, 79, 68, 89],
   [72, 84, 84, 80, 47],
   [104, 116, 116, 112, 58, 47, 47]]

/-- Model of `memmem`: does `needle` occur contiguously inside `hay`? -/
def containsSub (hay needle : List Nat) : Bool :=
  (List.range (hay.length + 1)).any
    (fun j => decide (needle = (hay.drop j).take needle.length))

/-- C-locale `isprint` on an unsigned byte. -/
def isprintC (c : Nat) : Bool := decide (32 ≤ c ∧ c ≤ 126)

/-- C-locale `isspace` on an unsigned byte. -/
def isspaceC (c : Nat) : Bool := decide (c = 32 ∨ (9 ≤ c ∧ c ≤ 13))

/-- Number of printable/whitespace bytes among the sampled
`MIN(200, size)` leading bytes. -/
def printableCount (data : List Nat) : Nat :=
  ((data.take (min 200 data.length)).filter
    (fun c => isprintC c || isspaceC c)).length

/-- Function `looks_like_text_content`: an HTML/HTTP marker occurs entirely within
the first `MIN(size, 200)` bytes, or more than 90% of the sampled bytes are
printable/whitespace (`printable_count > total_checked * 0.9`, i.e.
`10 * printable_count > 9 * total_checked` exactly). -/
def looks_like_text_content (data : List Nat) : Bool :=
  html_markers.any
    (fun m => decide (m.length ≤ data.length) &&
      containsSub (data.take (min data.length 200)) m)
  || decide (9 * min 200 data.length < 10 * printableCount data)

/-- The synthesized gradient placeholder of the source (identical fill loop
in `decode_image_to_rgb` and both placeholder paths of
`gopher_render_image`): `r = x*255/w`, `g = y*255/h`, `b = 128`. -/
def gradientPlaceholder (w h : Nat) : List Rgb :=
  (List.range h).flatMap (fun y =>
    (List.range w).map (fun x => ⟨x * 255 / w, y * 255 / h, 128⟩))

/-- Placeholder target dimensions of the large-image pre-check in
`gopher_render_image` (base 32×16; height recomputed with floor 4 when
`aspect > 2.0`, width recomputed with floor 8 when `aspect < 0.5`). -/
def placeholderDims (ow oh : Nat) : Nat × Nat :=
  if 2 * oh < ow then
    let th := 32 * oh / ow
    (32, if th < 4 then 4 else th)
  else if 2 * ow < oh then
    let tw := 16 * ow / oh
    (if tw < 8 then 8 else tw, 16)
  else (32, 16)

/-- Fallback dimensions of the out-of-memory path inside
`decode_image_to_rgb`: cap the longer axis at 128, preserve aspect,
floor both axes at 1. -/
def decodeFallbackDims (ow oh : Nat) : Nat × Nat :=
  let wh := if oh ≤ ow then (128, 128 * oh / ow) else (128 * ow / oh, 128)
  (if wh.1 < 1 then 1 else wh.1, if wh.2 < 1 then 1 else wh.2)

/-- The decode `scale` of `decode_image_to_rgb`:
`(int)sqrtf((float)memory_needed / max_memory) + 1` when over budget,
else 1. -/
def jpegScale (memory_needed max_memory : Nat) : Nat :=
  if max_memory < memory_needed then
    Nat.sqrt (memory_needed / max_memory) + 1
  else 1

/-- The whole `stbi__jpeg_decode_reduced` assignment ladder: 8 if
`scale >= 8`, else 4 if `scale >= 4`, else 2 if `scale >= 2`, else 1. -/
def stbi_jpeg_decode_reduced_of (scale : Nat) : Nat :=
  if 8 ≤ scale then 8 else if 4 ≤ scale then 4 else if 2 ≤ scale then 2 else 1

/-- The JPEG decode-scale reduction factor actually installed by
`decode_image_to_rgb` for a given memory requirement and budget. -/
def jpegReductionFactor (memory_needed max_memory : Nat) : Nat :=
  stbi_jpeg_decode_reduced_of (jpegScale memory_needed max_memory)

/-- The reduction factor claim C4 describes (literal reading): the smallest
f among {1,2,4,8} such that `memory_needed / f` stays within the budget. -/
def smallestFittingReduction (memory_needed max_memory : Nat) : Option Nat :=
  [1, 2, 4, 8].find? (fun f => decide (memory_needed / f ≤ max_memory))

/-- The reduction factor claim C4 describes (area reading, dimensions each
divided by f): the smallest f among {1,2,4,8} such that
`memory_needed / f²` stays within the budget. -/
def smallestFittingAreaReduction (memory_needed max_memory : Nat) : Option Nat :=
  [1, 2, 4, 8].find? (fun f => decide (memory_needed / (f * f) ≤ max_memory))

/-- JPEG magic-number test `FF D8 FF` gating the reduced-decode setup. -/
def isJpegMagic (data : List Nat) : Bool :=
  decide (3 ≤ data.length) && decide (data.getD 0 0 = 255) &&
    decide (data.getD 1 0 = 216) && decide (data.getD 2 0 = 255)

/-- One Floyd-Steinberg error deposit: add `err * num / 16` (C int
division) to each channel of `l[idx]`, clamping to `[0, 255]`. -/
def errAdd (l : List Rgb) (idx : Nat) (er eg eb num : Int) : List Rgb :=
  let p := l.getD idx ⟨0, 0, 0⟩
  l.set idx
    ⟨(clampC ((p.r : Int) + Int.tdiv (er * num) 16) 0 255).toNat,
     (clampC ((p.g : Int) + Int.tdiv (eg * num) 16) 0 255).toNat,
     (clampC ((p.b : Int) + Int.tdiv (eb * num) 16) 0 255).toNat⟩

/-- State of the dithering loop: the output buffer (`image`) and the
working copy (`img_copy`). -/
structure DitherState where
  image : List Rgb
  copy : List Rgb
deriving DecidableEq, Repr

/-- The body of the x/y loops of `apply_floyd_steinberg_dithering`. -/
def fsStep (w h y x : Nat) (st : DitherState) : DitherState :=
  let idx := y * w + x
  let old := st.copy.getD idx ⟨0, 0, 0⟩
  let np := paletteRgb (rgb_to_terminal_color old.r old.g old.b)
  let image := st.image.set idx np
  let er : Int := (old.r : Int) - (np.r : Int)
  let eg : Int := (old.g : Int) - (np.g : Int)
  let eb : Int := (old.b : Int) - (np.b : Int)
  let copy := st.copy
  let copy := if x + 1 < w then errAdd copy (y * w + (x + 1)) er eg eb 7 else copy
  let copy :=
    if y + 1 < h then
      let copy := errAdd copy ((y + 1) * w + x) er eg eb 5
      let copy := if 0 < x then errAdd copy ((y + 1) * w + (x - 1)) er eg eb 3 else copy
      if x + 1 < w then errAdd copy ((y + 1) * w + (x + 1)) er eg eb 1 else copy
    else copy
  ⟨image, copy⟩

/-- Function `apply_floyd_steinberg_dithering`: duplicate the buffer into a working
copy, then run the row-major error-diffusion loops; when the working-copy
allocation fails the function returns immediately leaving the buffer
untouched (void return, no error signalled). -/
def apply_floyd_steinberg_dithering (allocOk : Bool) (width height : Nat)
    (image : List Rgb) : List Rgb :=
  if allocOk then
    ((List.range height).foldl
      (fun st y => (List.range width).foldl (fun st x => fsStep width height y x st) st)
      ⟨image, image⟩).image
  else image

/-- Modelled from the spec: the Floyd-Steinberg neighbor offsets and error
weights in the order the spec lists them — right 7/16, below 5/16,
below-left 3/16, below-right 1/16. -/
def fsNeighborWeights : List (Int × Int × Int) :=
  [(1, 0, 7), (0, 1, 5), (-1, 1, 3), (1, 1, 1)]

/-- Modelled from the spec: one step of the Ditherer at flat row-major
index `k` (`x = k % w`, `y = k / w`): quantize the working-copy value,
write the reference RGB into the output at the same position, and deposit
the scaled error at every in-bounds neighbor of `fsNeighborWeights`,
skipping neighbors outside the buffer. -/
def fsSpecStep (w h : Nat) (st : DitherState) (k : Nat) : DitherState :=
  let x := k % w
  let y := k / w
  let old := st.copy.getD k ⟨0, 0, 0⟩
  let np := paletteRgb (rgb_to_terminal_color old.r old.g old.b)
  let er : Int := (old.r : Int) - (np.r : Int)
  let eg : Int := (old.g : Int) - (np.g : Int)
  let eb : Int := (old.b : Int) - (np.b : Int)
  let copy := fsNeighborWeights.foldl
    (fun cp dw =>
      let nx : Int := (x : Int) + dw.1
      let ny : Int := (y : Int) + dw.2.1
      if 0 ≤ nx ∧ nx < (w : Int) ∧ 0 ≤ ny ∧ ny < (h : Int) then
        errAdd cp (ny.toNat * w + nx.toNat) er eg eb dw.2.2
      else cp)
    st.copy
  ⟨st.image.set k np, copy⟩

/-- Modelled from the spec: the Ditherer as the spec phrases it — a single
fold over all pixels in row-major order, each step `fsSpecStep`. -/
def ditherSpec (w h : Nat) (image : List Rgb) : List Rgb :=
  ((List.range (h * w)).foldl (fsSpecStep w h) ⟨image, image⟩).image

/-- Truncation toward zero of a rational, the C `(int)` cast of a float. -/
def truncQ (q : ℚ) : Int := Int.tdiv q.num (q.den : Int)

/-- Truncate-then-clamp of `adjust_pixel`: `clamp((int)v, 0, 255)`. -/
def clampQtoByte (q : ℚ) : Nat := (clampC (truncQ q) 0 255).toNat

/-- Function `adjust_pixel`: multiply by brightness, apply contrast as a pivot
around 128, clamp each channel to `[0, 255]`. -/
def adjust_pixel (p : Rgb) (brightness contrast : ℚ) : Rgb :=
  ⟨clampQtoByte (128 + ((p.r : ℚ) * brightness - 128) * contrast),
   clampQtoByte (128 + ((p.g : ℚ) * brightness - 128) * contrast),
   clampQtoByte (128 + ((p.b : ℚ) * brightness - 128) * contrast)⟩

/-- Record `image_process_options_t`. -/
structure ImageProcessOptions where
  maintain_aspect_ratio : Bool
  use_bilinear_filtering : Bool
  brightness_adjust : ℚ
  contrast_adjust : ℚ
deriving DecidableEq, Repr

/-- The aspect-ratio adjustment at the top of `downscale_image_color`:
`src_aspect > tgt_aspect` (floats `src_w/src_h > tgt_w/tgt_h`) is the
cross-multiplied `tgt_w * src_h < src_w * tgt_h`; the recomputed dimension
is the truncated exact ratio, floored at 1. -/
def aspectAdjustedTarget (src_w src_h tgt_w tgt_h : Nat) : Nat × Nat :=
  if tgt_w * src_h < src_w * tgt_h then
    let nh := tgt_w * src_h / src_w
    (tgt_w, if nh < 1 then 1 else nh)
  else if src_w * tgt_h < tgt_w * src_h then
    let nw := tgt_h * src_w / src_h
    (if nw < 1 then 1 else nw, tgt_h)
  else (tgt_w, tgt_h)

/-- The bilinear branch of the scaling loop, in exact arithmetic:
`src_x = x * src_w / tw` with fractional numerator `a = x * src_w % tw`
(so `x_diff = a / tw`), edge pixels clamped by reuse, and the final
`(uint8_t)` cast truncating the nonnegative convex combination. -/
def bilinearPixel (src : List Rgb) (src_w src_h tw th x y : Nat) : Rgb :=
  let a := x * src_w % tw
  let bf := y * src_h % th
  let sxi := x * src_w / tw
  let syi := y * src_h / th
  let d : Rgb := ⟨0, 0, 0⟩
  let p00 := src.getD (syi * src_w + sxi) d
  let p10 := if sxi < src_w - 1 then src.getD (syi * src_w + sxi + 1) d else p00
  let p01 := if syi < src_h - 1 then src.getD ((syi + 1) * src_w + sxi) d else p00
  let p11 := if sxi < src_w - 1 && syi < src_h - 1 then
      src.getD ((syi + 1) * src_w + sxi + 1) d else p00
  ⟨((tw - a) * (th - bf) * p00.r + a * (th - bf) * p10.r +
      (tw - a) * bf * p01.r + a * bf * p11.r) / (tw * th),
   ((tw - a) * (th - bf) * p00.g + a * (th - bf) * p10.g +
      (tw - a) * bf * p01.g + a * bf * p11.g) / (tw * th),
   ((tw - a) * (th - bf) * p00.b + a * (th - bf) * p10.b +
      (tw - a) * bf * p01.b + a * bf * p11.b) / (tw * th)⟩

/-- Function `downscale_image_color`: adjust the target for aspect ratio, allocate
the result (the oracle bit `allocOk` is the outcome of `memory_alloc`; on
failure the function returns NULL), then fill each output pixel by
bilinear or nearest-neighbor sampling, applying `adjust_pixel` when
brightness or contrast is non-neutral.  Returns the buffer together with
the (possibly adjusted) dimensions it was built for. -/
def downscale_image_color (allocOk : Bool) (src : List Rgb)
    (src_w src_h tgt_w tgt_h : Nat) (options : ImageProcessOptions) :
    Option (List Rgb × Nat × Nat) :=
  let t := if options.maintain_aspect_ratio then
      aspectAdjustedTarget src_w src_h tgt_w tgt_h
    else (tgt_w, tgt_h)
  let tw := t.1
  let th := t.2
  if allocOk then
    some ((List.range th).flatMap (fun y => (List.range tw).map (fun x =>
        let pixel :=
          if options.use_bilinear_filtering then
            bilinearPixel src src_w src_h tw th x y
          else
            src.getD ((y * src_h / th) * src_w + x * src_w / tw) ⟨0, 0, 0⟩
        if options.brightness_adjust ≠ 1 ∨ options.contrast_adjust ≠ 1 then
          adjust_pixel pixel options.brightness_adjust options.contrast_adjust
        else pixel)),
      tw, th)
  else none

/-- The `ASCII_RAMP` characters (space, period, colon, dash, equals, plus,
asterisk, hash, percent, at), darkest to lightest. -/
def ASCII_RAMP : List Char :=
  [' ', '.', ':', '-', '=', '+', '*', '#', '%', '@']

/-- Character selected for a pixel: `ASCII_RAMP[gray * 9 / 255]`. -/
def rampChar (p : Rgb) : Char :=
  ASCII_RAMP.getD (rgb_to_gray p.r p.g p.b * 9 / 255) ' '

/-- One token of an output line: a fg/bg color-change escape pair, the
reset escape, or one ramp character. -/
inductive LineTok where
  | esc : Fin 8 → Fin 8 → LineTok
  | reset : LineTok
  | ch : Char → LineTok
deriving DecidableEq, Repr

/-- The ramp characters of a line, escapes dropped. -/
def chTokens (line : List LineTok) : List Char :=
  line.filterMap (fun t => match t with | LineTok.ch c => some c | _ => none)

/-- The per-pixel body of the rendering loop.  State is
`(last_fg, last_bg, color_active)`; a color escape pair is emitted only
when no color is active yet or the pair changed, and the selected ramp
character is emitted twice. -/
def renderPixel (use_color : Bool) (st : Fin 8 × Fin 8 × Bool) (p : Rgb) :
    (Fin 8 × Fin 8 × Bool) × List LineTok :=
  let c := rampChar p
  if use_color then
    let fg := rgb_to_terminal_color p.r p.g p.b
    let bg : Fin 8 := 0
    if st.2.2 = false ∨ fg ≠ st.1 ∨ bg ≠ st.2.1 then
      ((fg, bg, true), [LineTok.esc fg bg, LineTok.ch c, LineTok.ch c])
    else (st, [LineTok.ch c, LineTok.ch c])
  else (st, [LineTok.ch c, LineTok.ch c])

/-- The x loop over one row of pixels. -/
def renderLinePixels (use_color : Bool) (st : Fin 8 × Fin 8 × Bool) :
    List Rgb → (Fin 8 × Fin 8 × Bool) × List LineTok
  | [] => (st, [])
  | p :: rest =>
    let r1 := renderPixel use_color st p
    let r2 := renderLinePixels use_color r1.1 rest
    (r2.1, r1.2 ++ r2.2)

/-- One iteration of the y loop: render a row starting with
`color_active = false`, append the reset escape if any color was emitted,
and carry `last_fg`/`last_bg` to the next line. -/
def renderRow (use_color : Bool) (lastc : Fin 8 × Fin 8) (row : List Rgb) :
    (Fin 8 × Fin 8) × List LineTok :=
  let r := renderLinePixels use_color (lastc.1, lastc.2, false) row
  let line := if use_color && r.1.2.2 then r.2 ++ [LineTok.reset] else r.2
  ((r.1.1, r.1.2.1), line)

/-- The y loop of `render_ascii_art` over the listed row indices. -/
def renderRows (use_color : Bool) (buffer : List Rgb) (w : Nat)
    (lastc : Fin 8 × Fin 8) : List Nat → List (List LineTok)
  | [] => []
  | y :: ys =>
    let row := (List.range w).map (fun x => buffer.getD (y * w + x) ⟨0, 0, 0⟩)
    let r := renderRow use_color lastc row
    r.2 :: renderRows use_color buffer w r.1 ys

/-- Linux error numbers used by the source (returned negated). -/
def EINVAL : Int := 22

/-- ENOMEM errno. -/
def ENOMEM : Int := 12

/-- Function `render_ascii_art`: reject invalid dimensions with `-EINVAL`, fail
with `-ENOMEM` when the line buffer allocation fails, otherwise return 0
together with the emitted lines (one per buffer row). -/
def render_ascii_art (lineAllocOk use_color : Bool) (buffer : List Rgb)
    (width height : Nat) : Int × List (List LineTok) :=
  if width = 0 ∨ height = 0 ∨ 1000 < width ∨ 1000 < height then (-EINVAL, [])
  else if lineAllocOk = false then (-ENOMEM, [])
  else (0, renderRows use_color buffer width (0, 0) (List.range height))

/-- Reasons `stbi_failure_reason` can report, as far as the source
distinguishes them. -/
inductive StbiFail where
  | noSOF
  | badHuffman
  | pngError
  | outOfMem
  | other
deriving DecidableEq, Repr

/-- Oracle for the external stb_image codec on the buffer at hand:
the result of `stbi_info_from_memory`, the result of
`stbi_load_from_memory` (pixels with their dimensions, or NULL), and the
failure reason reported when loading fails. -/
structure Codec where
  info : Option (Nat × Nat × Nat)
  load : Option (List Rgb × Nat × Nat)
  failReason : StbiFail
deriving DecidableEq

/-- Oracle for the allocator: the outcome of each `memory_alloc` call site
of the pipeline. -/
structure AllocOracle where
  bigPlaceholder : Bool
  decodeFallback : Bool
  oomPlaceholder : Bool
  downscale : Bool
  dither : Bool
  line : Bool
deriving DecidableEq, Repr

/-- Record `ascii_art_config_t` (the fields the pipeline reads). -/
structure AsciiArtConfig where
  use_color : Bool
  use_dithering : Bool
  brightness : ℚ
  contrast : ℚ
deriving DecidableEq, Repr

/-- Function `decode_image_to_rgb`: bail out on text content, fail when
`stbi_info_from_memory` fails, set up the JPEG reduced-decode factor, then
take the codec's load result; on an out-of-memory load failure build the
128-capped gradient fallback (NULL when even that allocation fails). -/
def decode_image_to_rgb (image_data : List Nat) (codec : Codec)
    (alloc : AllocOracle) (max_memory : Nat) : Option (List Rgb × Nat × Nat) :=
  if looks_like_text_content image_data then none
  else
    match codec.info with
    | none => none
    | some (ow, oh, _) =>
      let scale := jpegScale (ow * oh * 3) max_memory
      let _reduced := if isJpegMagic image_data then
          stbi_jpeg_decode_reduced_of scale else 1
      match codec.load with
      | some r => some r
      | none =>
        if codec.failReason = StbiFail.outOfMem then
          if alloc.decodeFallback then
            let t := decodeFallbackDims ow oh
            some (gradientPlaceholder t.1 t.2, t.1, t.2)
          else none
        else none

/-- Observable outcome of one `gopher_render_image` call: the returned
code, the buffer handed to `render_ascii_art` (with the dimensions used)
when rendering happened, and whether the content was displayed as text. -/
structure RenderTrace where
  retCode : Int
  rendered : Option (List Rgb × Nat × Nat)
  displayedText : Bool
deriving DecidableEq

/-- After a decode failure the source displays the buffer as text when it
looks like text, or anyway when it is smaller than 1024 bytes. -/
def displayTextFallback (data : List Nat) : Bool :=
  looks_like_text_content data || decide (data.length < 1024)

/-- The decode-and-render tail of `gopher_render_image`: decode, on NULL
classify the stbi failure (an out-of-memory failure builds a fixed 32×16
gradient placeholder and renders it, returning the renderer's code; any
other failure returns `-EINVAL`), otherwise downscale to 40×20
(`-ENOMEM` when that allocation fails), optionally dither, and render —
the dither and render calls use the requested 40×20 dimensions exactly as
the source does. -/
def gopherDecodeAndRender (file_data : List Nat) (codec : Codec)
    (alloc : AllocOracle) (config : AsciiArtConfig) (max_memory : Nat) :
    RenderTrace :=
  match decode_image_to_rgb file_data codec alloc max_memory with
  | none =>
    if codec.failReason = StbiFail.outOfMem then
      if alloc.oomPlaceholder then
        let ph := gradientPlaceholder 32 16
        ⟨(render_ascii_art alloc.line config.use_color ph 32 16).1,
          some (ph, 32, 16), false⟩
      else ⟨-EINVAL, none, displayTextFallback file_data⟩
    else ⟨-EINVAL, none, displayTextFallback file_data⟩
  | some (img, w, h) =>
    match downscale_image_color alloc.downscale img w h 40 20
        ⟨true, true, config.brightness, config.contrast⟩ with
    | none => ⟨-ENOMEM, none, false⟩
    | some (scaled, _, _) =>
      let final := if config.use_dithering then
          apply_floyd_steinberg_dithering alloc.dither 40 20 scaled
        else scaled
      ⟨(render_ascii_art alloc.line config.use_color final 40 20).1,
        some (final, 40, 20), false⟩

/-- Function `gopher_render_image`: memory budget 3 MB with expanded memory, else
200 KB; text content is rejected with `-EINVAL` and displayed as text
before anything else; when the codec reports dimensions whose RGB memory
exceeds the budget, a bounded gradient placeholder is rendered instead of
decoding (when its allocation succeeds); otherwise the decode-and-render
tail runs. -/
def gopher_render_image (file_data : List Nat) (codec : Codec)
    (alloc : AllocOracle) (config : AsciiArtConfig) (large_memory : Bool) :
    RenderTrace :=
  let max_memory : Nat := if large_memory then 3000000 else 200000
  if looks_like_text_content file_data then ⟨-EINVAL, none, true⟩
  else
    let pre : Option RenderTrace :=
      match codec.info with
      | some (ow, oh, _) =>
        if max_memory < ow * oh * 3 then
          if alloc.bigPlaceholder then
            let t := placeholderDims ow oh
            let ph := gradientPlaceholder t.1 t.2
            some ⟨(render_ascii_art alloc.line config.use_color ph t.1 t.2).1,
              some (ph, t.1, t.2), false⟩
          else none
        else none
      | none => none
    match pre with
    | some tr => tr
    | none => gopherDecodeAndRender file_data codec alloc config max_memory

/-! ### Generic list and fold helpers -/

/-- Writing back the value read at a position leaves a list unchanged. -/
theorem list_set_getD_self {α : Type} (l : List α) (i : Nat) (d : α) :
    l.set i (l.getD i d) = l := by
  induction l generalizing i with
  | nil => simp
  | cons a t ih =>
    cases i with
    | zero => simp [List.getD]
    | succ j =>
      simp only [List.getD, List.set, List.getElem?_cons_succ, List.cons.injEq, true_and]
      have := ih j
      simpa [List.getD] using this

/-- A fold whose step fixes the accumulator on every listed element leaves
it unchanged. -/
theorem foldl_fixed {α σ : Type} (f : σ → α → σ) (s : σ) (l : List α)
    (h : ∀ a ∈ l, f s a = s) : l.foldl f s = s := by
  induction l with
  | nil => rfl
  | cons a t ih =>
    rw [List.foldl_cons, h a (by simp)]
    exact ih (fun b hb => h b (by simp [hb]))

/-! ### Palette facts -/

/-- Quantizing a reference palette color returns that color. -/
theorem quantize_palette_fix (p : Rgb) (hp : p ∈ terminal_colors) :
    paletteRgb (rgb_to_terminal_color p.r p.g p.b) = p := by
  fin_cases hp <;> decide

/-- Every reference palette color has byte-range channels. -/
theorem palette_channels_le (p : Rgb) (hp : p ∈ terminal_colors) :
    p.r ≤ 255 ∧ p.g ≤ 255 ∧ p.b ≤ 255 := by
  fin_cases hp <;> decide

/-! ### Dithering on palette-valued buffers -/

/-- Depositing a zero error leaves the working copy unchanged (on buffers
with byte-range channels). -/
theorem errAdd_zero (l : List Rgb) (idx : Nat) (num : Int)
    (hl : ∀ q ∈ l, q.r ≤ 255 ∧ q.g ≤ 255 ∧ q.b ≤ 255) :
    errAdd l idx 0 0 0 num = l := by
  unfold errAdd
  have hz : Int.tdiv ((0 : Int) * num) 16 = 0 := by
    rw [zero_mul]
    rfl
  by_cases hidx : idx < l.length
  · have hget : l.getD idx ⟨0, 0, 0⟩ = l[idx] := List.getD_eq_getElem l _ hidx
    have hmem : l[idx] ∈ l := List.getElem_mem hidx
    obtain ⟨h1, h2, h3⟩ := hl _ hmem
    have hcl : ∀ n : Nat, n ≤ 255 → (clampC ((n : Int) + Int.tdiv (0 * num) 16) 0 255).toNat = n := by
      intro n hn
      rw [hz, add_zero]
      unfold clampC
      have : ¬((n : Int) < 0) := by omega
      rw [if_neg this]
      have : ¬((n : Int) > 255) := by omega
      rw [if_neg this]
      exact Int.toNat_natCast n
    simp only [hget]
    rw [hcl _ h1, hcl _ h2, hcl _ h3]
    have : (⟨l[idx].r, l[idx].g, l[idx].b⟩ : Rgb) = l[idx] := rfl
    rw [this, ← hget, list_set_getD_self]
  · rw [List.set_eq_of_length_le (by omega)]

/-- On a buffer whose pixels are all reference palette colors, one
dithering step fixes the state `⟨image, image⟩`. -/
theorem fsStep_palette_fix (w h y x : Nat) (image : List Rgb)
    (himg : ∀ p ∈ image, p ∈ terminal_colors) :
    fsStep w h y x ⟨image, image⟩ = ⟨image, image⟩ := by
  unfold fsStep
  have hch : ∀ q ∈ image, q.r ≤ 255 ∧ q.g ≤ 255 ∧ q.b ≤ 255 :=
    fun q hq => palette_channels_le q (himg q hq)
  have hold : image.getD (y * w + x) ⟨0, 0, 0⟩ ∈ terminal_colors := by
    by_cases hidx : y * w + x < image.length
    · rw [List.getD_eq_getElem _ _ hidx]
      exact himg _ (List.getElem_mem hidx)
    · rw [List.getD_eq_getElem?_getD, List.getElem?_eq_none (by omega)]
      decide
  have hq := quantize_palette_fix _ hold
  simp only [hq, sub_self, list_set_getD_self, errAdd_zero _ _ _ hch, ite_self]

/-- C6 claim: Floyd-Steinberg dithering is the identity on buffers whose
pixels are all reference palette colors (zero quantization error at every
pixel). -/
theorem C6_dither_palette_identity (w h : Nat) (image : List Rgb)
    (himg : ∀ p ∈ image, p ∈ terminal_colors) :
    apply_floyd_steinberg_dithering true w h image = image := by
  unfold apply_floyd_steinberg_dithering
  rw [if_pos rfl]
  have hrow : ∀ y ∈ List.range h,
      (List.range w).foldl (fun st x => fsStep w h y x st) ⟨image, image⟩ =
        (⟨image, image⟩ : DitherState) := by
    intro y _
    exact foldl_fixed _ _ _ (fun x _ => fsStep_palette_fix w h y x image himg)
  rw [foldl_fixed _ _ _ hrow]

/-! ### Equivalence of the spec-worded Ditherer with the source loops -/

/-- At an in-bounds pixel the spec-worded step at flat index `y*w + x`
coincides with the body of the source's nested loops. -/
theorem fsSpecStep_eq_fsStep (w h y x : Nat) (hx : x < w) (hy : y < h)
    (st : DitherState) : fsSpecStep w h st (y * w + x) = fsStep w h y x st := by
  have hw : 0 < w := by omega
  have hmod : (y * w + x) % w = x := by
    rw [mul_comm, Nat.mul_add_mod]
    exact Nat.mod_eq_of_lt hx
  have hdiv : (y * w + x) / w = y := by
    rw [mul_comm, Nat.mul_add_div hw, Nat.div_eq_of_lt hx, add_zero]
  have t1 : ((y : Int) + 0).toNat = y := by omega
  have t2 : ((x : Int) + 1).toNat = x + 1 := by omega
  have t3 : ((y : Int) + 1).toNat = y + 1 := by omega
  have t4 : ((x : Int) + -1).toNat = x - 1 := by omega
  have c1 : (0 ≤ (x : Int) + 1 ∧ (x : Int) + 1 < (w : Int) ∧
      0 ≤ (y : Int) + 0 ∧ (y : Int) + 0 < (h : Int)) ↔ x + 1 < w := by omega
  have c2 : (0 ≤ (x : Int) + 0 ∧ (x : Int) + 0 < (w : Int) ∧
      0 ≤ (y : Int) + 1 ∧ (y : Int) + 1 < (h : Int)) ↔ y + 1 < h := by omega
  have c3 : (0 ≤ (x : Int) + -1 ∧ (x : Int) + -1 < (w : Int) ∧
      0 ≤ (y : Int) + 1 ∧ (y : Int) + 1 < (h : Int)) ↔ (0 < x ∧ y + 1 < h) := by
    omega
  have c4 : (0 ≤ (x : Int) + 1 ∧ (x : Int) + 1 < (w : Int) ∧
      0 ≤ (y : Int) + 1 ∧ (y : Int) + 1 < (h : Int)) ↔ (x + 1 < w ∧ y + 1 < h) := by
    omega
  simp only [fsSpecStep, fsStep, fsNeighborWeights, List.foldl_cons, List.foldl_nil,
    hmod, hdiv, t1, t2, t3, t4, c1, c2, c3, c4]
  by_cases hyh : y + 1 < h
  · by_cases hx0 : 0 < x <;> by_cases hx1 : x + 1 < w <;> simp [hyh, hx0, hx1]
  · simp [hyh]

/-- The flat row-major fold of the spec-worded Ditherer equals the nested
row/column folds of the source, row block by row block. -/
theorem ditherSpec_rows (w H : Nat) :
    ∀ (n : Nat), n ≤ H → ∀ st : DitherState,
    (List.range (n * w)).foldl (fsSpecStep w H) st =
      (List.range n).foldl
        (fun st y => (List.range w).foldl (fun st x => fsStep w H y x st) st) st := by
  intro n
  induction n with
  | zero => intro _ st; simp
  | succ m ih =>
    intro hm st
    have h1 : (m + 1) * w = m * w + w := by ring
    rw [h1, List.range_add, List.foldl_append, ih (by omega) st,
      List.range_succ, List.foldl_append, List.foldl_map, List.foldl_cons,
      List.foldl_nil]
    exact List.foldl_ext _ _ _
      (fun st' j hj => fsSpecStep_eq_fsStep w H m j (List.mem_range.mp hj) (by omega) st')

/-- C5 claim: the spec-worded Floyd-Steinberg Ditherer (row-major flat
traversal, quantize/write/propagate with weights 7-5-3-1/16, each neighbor
bounds-checked and clamped) computes exactly what the source's
`apply_floyd_steinberg_dithering` computes, for every buffer and every
pair of dimensions. -/
theorem C5_dither_refines_spec (w h : Nat) (image : List Rgb) :
    ditherSpec w h image = apply_floyd_steinberg_dithering true w h image := by
  unfold ditherSpec apply_floyd_steinberg_dithering
  rw [if_pos rfl, ditherSpec_rows w h h (le_refl h)]

/-! ### Minimality of the palette quantizer scan -/

/-- For byte-range inputs every palette distance is strictly below the
initial `min_distance` value `255*255*3`. -/
theorem color_distance_lt (r g b : Nat) (hr : r ≤ 255) (hg : g ≤ 255)
    (hb : b ≤ 255) (i : Fin 8) : color_distance r g b i < 195075 := by
  have hc : (paletteRgb i).r ≤ 170 ∧ (paletteRgb i).g ≤ 170 ∧
      (paletteRgb i).b ≤ 170 := by fin_cases i <;> decide
  obtain ⟨h1, h2, h3⟩ := hc
  unfold color_distance
  set dr : Int := (r : Int) - ((paletteRgb i).r : Int) with hdr
  set dg : Int := (g : Int) - ((paletteRgb i).g : Int) with hdg
  set db : Int := (b : Int) - ((paletteRgb i).b : Int) with hdb
  have br : -255 ≤ dr ∧ dr ≤ 255 := by omega
  have bg : -255 ≤ dg ∧ dg ≤ 255 := by omega
  have bb : -255 ≤ db ∧ db ≤ 255 := by omega
  have sr : dr * dr ≤ 65025 := by nlinarith [br.1, br.2]
  have sg : dg * dg ≤ 65025 := by nlinarith [bg.1, bg.2]
  have sb : db * db ≤ 65025 := by nlinarith [bb.1, bb.2]
  have h0 : 0 ≤ dr * dr * 3 + dg * dg * 4 + db * db * 2 := by
    nlinarith [mul_self_nonneg dr, mul_self_nonneg dg, mul_self_nonneg db]
  have hub : dr * dr * 3 + dg * dg * 4 + db * db * 2 ≤ 585225 := by nlinarith
  rw [Int.tdiv_eq_ediv h0 (by norm_num)]
  omega

/-- Invariant of the linear minimum scan: over a strictly increasing
candidate list the scan either keeps its accumulated best (every candidate
at least as distant as the accumulated minimum), or it returns the first
listed candidate realizing a strictly smaller distance. -/
theorem minScanGo_spec (r g b : Nat) :
    ∀ (l : List (Fin 8)), l.Pairwise (· < ·) → ∀ (best : Fin 8) (dist : Int),
    (minScanGo r g b best dist l = best ∧ ∀ i ∈ l, dist ≤ color_distance r g b i) ∨
    (minScanGo r g b best dist l ∈ l ∧
      color_distance r g b (minScanGo r g b best dist l) < dist ∧
      (∀ i ∈ l, color_distance r g b (minScanGo r g b best dist l) ≤
        color_distance r g b i) ∧
      ∀ i ∈ l, i < minScanGo r g b best dist l →
        color_distance r g b (minScanGo r g b best dist l) < color_distance r g b i) := by
  intro l
  induction l with
  | nil =>
    intro _ best dist
    left
    rw [minScanGo]
    exact ⟨rfl, by simp⟩
  | cons a t ih =>
    intro hp best dist
    obtain ⟨hat, hpt⟩ := List.pairwise_cons.mp hp
    by_cases hda : color_distance r g b a < dist
    · rw [minScanGo, if_pos hda]
      rcases ih hpt a (color_distance r g b a) with ⟨heq, hall⟩ | ⟨hmem, hlt, hmin, hfirst⟩
      · right
        rw [heq]
        refine ⟨List.mem_cons_self a t, hda, ?_, ?_⟩
        · intro i hi
          rcases List.mem_cons.mp hi with hh | hh
          · subst hh; exact le_refl _
          · exact hall i hh
        · intro i hi hlt'
          rcases List.mem_cons.mp hi with hh | hh
          · subst hh; exact absurd hlt' (lt_irrefl _)
          · exact absurd hlt' (not_lt.mpr (le_of_lt (hat i hh)))
      · right
        refine ⟨List.mem_cons_of_mem a hmem, lt_trans hlt hda, ?_, ?_⟩
        · intro i hi
          rcases List.mem_cons.mp hi with hh | hh
          · subst hh; exact le_of_lt hlt
          · exact hmin i hh
        · intro i hi hlt'
          rcases List.mem_cons.mp hi with hh | hh
          · subst hh; exact hlt
          · exact hfirst i hh hlt'
    · rw [minScanGo, if_neg hda]
      rcases ih hpt best dist with ⟨heq, hall⟩ | ⟨hmem, hlt, hmin, hfirst⟩
      · left
        refine ⟨heq, ?_⟩
        intro i hi
        rcases List.mem_cons.mp hi with hh | hh
        · subst hh; omega
        · exact hall i hh
      · right
        refine ⟨List.mem_cons_of_mem a hmem, hlt, ?_, ?_⟩
        · intro i hi
          rcases List.mem_cons.mp hi with hh | hh
          · subst hh; omega
          · exact hmin i hh
        · intro i hi hlt'
          rcases List.mem_cons.mp hi with hh | hh
          · subst hh; omega
          · exact hfirst i hh hlt'

/-- C9 claim: for every RGB triple in `[0,255]^3` the quantizer returns
the palette index minimizing the weighted distance
`(3*dr^2 + 4*dg^2 + 2*db^2) / 9` over the fixed reference table, with ties
broken in favor of the lowest enum index (every strictly earlier index is
strictly farther).  Totality and determinism hold by construction:
`rgb_to_terminal_color` is a pure total function into `Fin 8`. -/
theorem C9_quantizer_minimal (r g b : Nat) (hr : r ≤ 255) (hg : g ≤ 255)
    (hb : b ≤ 255) :
    (∀ j : Fin 8, color_distance r g b (rgb_to_terminal_color r g b) ≤
      color_distance r g b j) ∧
    (∀ j : Fin 8, j < rgb_to_terminal_color r g b →
      color_distance r g b j > color_distance r g b (rgb_to_terminal_color r g b)) := by
  have hbound := color_distance_lt r g b hr hg hb
  unfold rgb_to_terminal_color
  rcases minScanGo_spec r g b (List.finRange 8) (List.pairwise_lt_finRange 8)
      0 195075 with ⟨_, hall⟩ | ⟨_, _, hmin, hfirst⟩
  · exact absurd (hall 0 (List.mem_finRange 0)) (not_le.mpr (hbound 0))
  · exact ⟨fun j => hmin j (List.mem_finRange j),
      fun j hj => hfirst j (List.mem_finRange j) hj⟩

/-! ### Terminal renderer: line and character structure -/

/-- The tokens one pixel contributes always carry exactly its doubled ramp
character, whatever the color state. -/
theorem renderPixel_chars (u : Bool) (st : Fin 8 × Fin 8 × Bool) (p : Rgb) :
    chTokens (renderPixel u st p).2 = [rampChar p, rampChar p] := by
  unfold renderPixel
  split_ifs <;> try simp [chTokens]
  split_ifs <;> simp [chTokens]

/-- Helper: `chTokens` distributes over concatenation. -/
theorem chTokens_append (a c : List LineTok) :
    chTokens (a ++ c) = chTokens a ++ chTokens c := by
  unfold chTokens
  exact List.filterMap_append a c _

/-- The characters of a rendered row are the doubled ramp characters of
its pixels, independent of the incoming color state. -/
theorem renderLinePixels_chars (u : Bool) :
    ∀ (row : List Rgb) (st : Fin 8 × Fin 8 × Bool),
    chTokens (renderLinePixels u st row).2 =
      row.flatMap (fun p => [rampChar p, rampChar p]) := by
  intro row
  induction row with
  | nil => intro st; simp [renderLinePixels, chTokens]
  | cons p rest ih =>
    intro st
    rw [renderLinePixels]
    rw [chTokens_append, renderPixel_chars, ih, List.flatMap_cons]

/-- The same, for a full line including its optional trailing reset. -/
theorem renderRow_chars (u : Bool) (lastc : Fin 8 × Fin 8) (row : List Rgb) :
    chTokens (renderRow u lastc row).2 =
      row.flatMap (fun p => [rampChar p, rampChar p]) := by
  simp only [renderRow]
  split_ifs with h
  · rw [chTokens_append, renderLinePixels_chars]
    simp [chTokens]
  · rw [renderLinePixels_chars]

/-- The renderer emits one line per listed row index. -/
theorem renderRows_length (u : Bool) (buffer : List Rgb) (w : Nat) :
    ∀ (ys : List Nat) (lastc : Fin 8 × Fin 8),
    (renderRows u buffer w lastc ys).length = ys.length := by
  intro ys
  induction ys with
  | nil => intro lastc; rw [renderRows]; rfl
  | cons y rest ih =>
    intro lastc
    rw [renderRows, List.length_cons, ih, List.length_cons]

/-- The characters of the k-th emitted line are the doubled ramp
characters of the pixels of row `ys[k]`. -/
theorem renderRows_chars (u : Bool) (buffer : List Rgb) (w : Nat) :
    ∀ (ys : List Nat) (lastc : Fin 8 × Fin 8) (k : Nat), k < ys.length →
    chTokens ((renderRows u buffer w lastc ys).getD k []) =
      ((List.range w).map (fun x => buffer.getD (ys.getD k 0 * w + x) ⟨0, 0, 0⟩)).flatMap
        (fun p => [rampChar p, rampChar p]) := by
  intro ys
  induction ys with
  | nil => intro lastc k hk; simp at hk
  | cons y rest ih =>
    intro lastc k hk
    rw [renderRows]
    cases k with
    | zero =>
      simp only [List.getD_cons_zero]
      exact renderRow_chars u lastc _
    | succ j =>
      simp only [List.getD_cons_succ]
      exact ih _ j (by simpa using hk)

/-- Doubling each pixel's character yields exactly `2 * length` characters. -/
theorem flatMap_pair_length (l : List Rgb) :
    (l.flatMap (fun p => [rampChar p, rampChar p])).length = 2 * l.length := by
  induction l with
  | nil => rfl
  | cons p rest ih =>
    rw [List.flatMap_cons, List.length_append, ih, List.length_cons]
    simp
    omega

/-- C7 counterexample: the claim fails as stated.  The renderer's
dimension guard rejects a 1001×1 buffer — width and height are both at
least 1, yet it returns `-EINVAL` and emits zero lines instead of
`height` lines of `2 * width` characters; and even at 1×1 a failed line
allocation returns `-ENOMEM` with zero lines. -/
theorem C7_counterexample :
    (1 : Nat) ≤ 1001 ∧ (1 : Nat) ≤ 1 ∧
    render_ascii_art true true [⟨0, 0, 0⟩] 1001 1 = (-EINVAL, []) ∧
    (render_ascii_art true true [⟨0, 0, 0⟩] 1001 1).2.length = 0 ∧
    render_ascii_art false true [⟨0, 0, 0⟩] 1 1 = (-ENOMEM, []) := by
  decide

/-- C7 amended: for every buffer whose dimensions satisfy
`1 ≤ width ≤ 1000` and `1 ≤ height ≤ 1000` (the renderer's dimension
guard rejects anything larger with `-EINVAL`) and whose line-buffer
allocation succeeds (failure is `-ENOMEM` with no lines), the renderer
returns its success code 0 and emits exactly `height` lines; the ramp
characters of line `y` (escapes excluded) are exactly the characters
`ASCII_RAMP[gray * 9 / 255]` of the pixels `buffer[y*width + x]`, each
repeated twice, hence `2 * width` characters per line; and the luma-0
pixel maps to the space character. -/
theorem C7_renderer_shape (buffer : List Rgb) (w h : Nat) (u : Bool)
    (hw1 : 1 ≤ w) (hw2 : w ≤ 1000) (hh1 : 1 ≤ h) (hh2 : h ≤ 1000) :
    (render_ascii_art true u buffer w h).1 = 0 ∧
    (render_ascii_art true u buffer w h).2.length = h ∧
    (∀ y < h,
      chTokens ((render_ascii_art true u buffer w h).2.getD y []) =
        ((List.range w).map (fun x => buffer.getD (y * w + x) ⟨0, 0, 0⟩)).flatMap
          (fun p => [rampChar p, rampChar p]) ∧
      (chTokens ((render_ascii_art true u buffer w h).2.getD y [])).length = 2 * w) ∧
    rampChar ⟨0, 0, 0⟩ = ' ' := by
  have hguard : ¬(w = 0 ∨ h = 0 ∨ 1000 < w ∨ 1000 < h) := by omega
  have hra : render_ascii_art true u buffer w h =
      (0, renderRows u buffer w (0, 0) (List.range h)) := by
    unfold render_ascii_art
    rw [if_neg hguard]
    rfl
  rw [hra]
  refine ⟨rfl, ?_, ?_, by decide⟩
  · rw [renderRows_length, List.length_range]
  · intro y hy
    have hylen : y < (List.range h).length := by
      rw [List.length_range]; exact hy
    have hgd : (List.range h).getD y 0 = y := by
      rw [List.getD_eq_getElem _ _ hylen, List.getElem_range]
    have hc := renderRows_chars u buffer w (List.range h) (0, 0) y hylen
    rw [hgd] at hc
    refine ⟨hc, ?_⟩
    rw [hc, flatMap_pair_length, List.length_map, List.length_range]

/-! ### Resampler: adjusted target dimensions -/

/-- Division remainder bound in product form: `a < (a / b) * b + b`. -/
theorem lt_div_mul_add (a b : Nat) (hb : 0 < b) : a < a / b * b + b := by
  have h := Nat.div_add_mod a b
  have hm : a % b < b := Nat.mod_lt _ hb
  nlinarith [h, hm]

/-- The aspect-ratio adjustment of `downscale_image_color` keeps both
targets at least 1 and at most the requested values, and either leaves
both unchanged or recomputes exactly one of them to within one pixel-unit
of the exact aspect-preserving value (the inequalities say
`|adjusted*denominator - exact_numerator| ≤ denominator`, i.e. the
adjusted dimension differs from the real-valued aspect-preserving
dimension by at most one pixel). -/
theorem aspectAdjustedTarget_spec (sw sh tw th : Nat) (hsw : 1 ≤ sw)
    (hsh : 1 ≤ sh) (htw : 1 ≤ tw) (hth : 1 ≤ th) :
    1 ≤ (aspectAdjustedTarget sw sh tw th).1 ∧
    1 ≤ (aspectAdjustedTarget sw sh tw th).2 ∧
    (aspectAdjustedTarget sw sh tw th).1 ≤ tw ∧
    (aspectAdjustedTarget sw sh tw th).2 ≤ th ∧
    (((aspectAdjustedTarget sw sh tw th).1 = tw ∧
        (aspectAdjustedTarget sw sh tw th).2 = th) ∨
      ((aspectAdjustedTarget sw sh tw th).1 = tw ∧
        (aspectAdjustedTarget sw sh tw th).2 * sw ≤ tw * sh + sw ∧
        tw * sh ≤ (aspectAdjustedTarget sw sh tw th).2 * sw + sw) ∨
      ((aspectAdjustedTarget sw sh tw th).2 = th ∧
        (aspectAdjustedTarget sw sh tw th).1 * sh ≤ th * sw + sh ∧
        th * sw ≤ (aspectAdjustedTarget sw sh tw th).1 * sh + sh)) := by
  have hA1 : tw * sh / sw * sw ≤ tw * sh := Nat.div_mul_le_self (tw * sh) sw
  have hB1 : tw * sh < tw * sh / sw * sw + sw :=
    lt_div_mul_add (tw * sh) sw (by omega)
  have hA2 : th * sw / sh * sh ≤ th * sw := Nat.div_mul_le_self (th * sw) sh
  have hB2 : th * sw < th * sw / sh * sh + sh :=
    lt_div_mul_add (th * sw) sh (by omega)
  unfold aspectAdjustedTarget
  dsimp only
  split_ifs with c1 hq1 c2 hq2
  · -- source wider, recomputed height floored to 1
    refine ⟨htw, le_refl 1, le_refl tw, hth, Or.inr (Or.inl ⟨rfl, ?_, ?_⟩)⟩
    · nlinarith
    · nlinarith [hq1]
  · -- source wider, recomputed height kept
    have hqth : tw * sh / sw < th := by
      refine (Nat.div_lt_iff_lt_mul (by omega : 0 < sw)).mpr ?_
      calc tw * sh < sw * th := c1
        _ = th * sw := mul_comm sw th
    refine ⟨htw, by omega, le_refl tw, by omega, Or.inr (Or.inl ⟨rfl, ?_, ?_⟩)⟩
    · nlinarith
    · nlinarith
  · -- source taller, recomputed width floored to 1
    refine ⟨le_refl 1, hth, htw, le_refl th, Or.inr (Or.inr ⟨rfl, ?_, ?_⟩)⟩
    · nlinarith
    · nlinarith [hq2]
  · -- source taller, recomputed width kept
    have hqtw : th * sw / sh < tw := by
      refine (Nat.div_lt_iff_lt_mul (by omega : 0 < sh)).mpr ?_
      calc th * sw = sw * th := mul_comm th sw
        _ < tw * sh := c2
    refine ⟨by omega, hth, by omega, le_refl th, Or.inr (Or.inr ⟨rfl, ?_, ?_⟩)⟩
    · nlinarith
    · nlinarith
  · exact ⟨htw, hth, le_refl _, le_refl _, Or.inl ⟨rfl, rfl⟩⟩

/-- C8 claim: resampling (with a successful allocation) returns a buffer
built for the requested dimensions unless `maintain_aspect_ratio`
adjusted one of them, in which case the adjusted dimension is at most the
requested one, both dimensions stay at least 1, and the adjusted
dimension is within one pixel-unit of the exact aspect-preserving value
(`|rh*sw - tw*sh| ≤ sw`, resp. `|rw*sh - th*sw| ≤ sh`: the result's
aspect ratio matches the source's to within one pixel). -/
theorem C8_resample_dims (src : List Rgb) (sw sh tw th : Nat)
    (opts : ImageProcessOptions) (hsw : 1 ≤ sw) (hsh : 1 ≤ sh)
    (htw : 1 ≤ tw) (hth : 1 ≤ th) :
    ∃ buf rw rh, downscale_image_color true src sw sh tw th opts = some (buf, rw, rh) ∧
      1 ≤ rw ∧ 1 ≤ rh ∧ rw ≤ tw ∧ rh ≤ th ∧
      (opts.maintain_aspect_ratio = false → rw = tw ∧ rh = th) ∧
      (opts.maintain_aspect_ratio = true →
        ((rw = tw ∧ rh = th) ∨
         (rw = tw ∧ rh * sw ≤ tw * sh + sw ∧ tw * sh ≤ rh * sw + sw) ∨
         (rh = th ∧ rw * sh ≤ th * sw + sh ∧ th * sw ≤ rw * sh + sh))) := by
  rcases hm : opts.maintain_aspect_ratio with _ | _
  · unfold downscale_image_color
    rw [hm]
    exact ⟨_, _, _, rfl, htw, hth, le_refl _, le_refl _, fun _ => ⟨rfl, rfl⟩,
      fun hc => by simp at hc⟩
  · obtain ⟨h1, h2, h3, h4, h5⟩ := aspectAdjustedTarget_spec sw sh tw th hsw hsh htw hth
    unfold downscale_image_color
    rw [hm]
    exact ⟨_, _, _, rfl, h1, h2, h3, h4, fun hc => by simp at hc, fun _ => h5⟩

/-! ### JPEG decode-scale reduction factor -/

/-- C4 counterexample: for a 500×700 JPEG against the 200 KB budget
(`memory_needed = 1,050,000`, about 5.25× the budget) the code installs
reduction factor 2, yet 2 fits under neither reading of the claim
(`1050000/2` and `1050000/(2*2)` both exceed the budget), while the
smallest fitting factor among {1,2,4,8} is 8 under the literal
`memory/f` reading and 4 under the per-axis `memory/f²` reading. -/
theorem C4_counterexample :
    jpegReductionFactor (500 * 700 * 3) 200000 = 2 ∧
    smallestFittingReduction (500 * 700 * 3) 200000 = some 8 ∧
    smallestFittingAreaReduction (500 * 700 * 3) 200000 = some 4 ∧
    200000 < 500 * 700 * 3 / 2 ∧ 200000 < 500 * 700 * 3 / (2 * 2) := by
  refine ⟨?_, by decide, by decide, by decide, by decide⟩
  have hd : (500 * 700 * 3 : Nat) / 200000 = 5 := by norm_num
  have hs : Nat.sqrt 5 = 2 := by
    have h1 : 2 ≤ Nat.sqrt 5 := by
      rw [Nat.le_sqrt]
      norm_num
    have h2 : Nat.sqrt 5 < 3 := by
      rw [Nat.sqrt_lt]
      norm_num
    omega
  unfold jpegReductionFactor jpegScale stbi_jpeg_decode_reduced_of
  rw [if_pos (by norm_num : (200000 : Nat) < 500 * 700 * 3), hd, hs]
  norm_num

/-- C4 amended: the installed JPEG reduction factor is the largest value
among {1,2,4,8} that does not exceed the scale estimate
`floor(sqrt(memory_needed / max_memory)) + 1` (1 when within budget) —
which, as the counterexample shows, can undershoot the smallest
budget-fitting reduction. -/
theorem C4_factor_is_largest_below_scale (m bud : Nat) :
    (jpegReductionFactor m bud = 1 ∨ jpegReductionFactor m bud = 2 ∨
      jpegReductionFactor m bud = 4 ∨ jpegReductionFactor m bud = 8) ∧
    jpegReductionFactor m bud ≤ jpegScale m bud ∧
    (jpegReductionFactor m bud = 8 ∨ jpegScale m bud < 2 * jpegReductionFactor m bud) := by
  have hs1 : 1 ≤ jpegScale m bud := by
    unfold jpegScale
    split_ifs <;> omega
  unfold jpegReductionFactor stbi_jpeg_decode_reduced_of
  split_ifs <;> omega

/-! ### Content classifier and pipeline bypass -/

/-- C3 claim: a buffer containing any of the fixed HTML/HTTP markers
entirely within its first 200 bytes, or whose sampled first 200 bytes are
more than 90% printable/whitespace, is classified as text, and
`gopher_render_image` then returns `-EINVAL` and displays the content as
text without consulting the codec at all — the result is the same for
every codec oracle, so image magic bytes anywhere in the buffer are
irrelevant. -/
theorem C3_text_bypasses_image_pipeline (data : List Nat) (codec : Codec)
    (alloc : AllocOracle) (config : AsciiArtConfig) (lm : Bool)
    (h : (∃ m ∈ html_markers, ∃ j, j + m.length ≤ min data.length 200 ∧
            (data.drop j).take m.length = m) ∨
         9 * min 200 data.length < 10 * printableCount data) :
    looks_like_text_content data = true ∧
    gopher_render_image data codec alloc config lm = ⟨-EINVAL, none, true⟩ := by
  have htext : looks_like_text_content data = true := by
    unfold looks_like_text_content
    rw [Bool.or_eq_true]
    rcases h with ⟨m, hmem, j, hjlen, hslice⟩ | hratio
    · left
      rw [List.any_eq_true]
      refine ⟨m, hmem, ?_⟩
      rw [Bool.and_eq_true, decide_eq_true_eq]
      constructor
      · omega
      · unfold containsSub
        rw [List.any_eq_true]
        have hlen : (data.take (min data.length 200)).length = min data.length 200 := by
          rw [List.length_take]
          omega
        refine ⟨j, ?_, ?_⟩
        · rw [List.mem_range, hlen]
          omega
        · rw [decide_eq_true_eq, List.drop_take, List.take_take]
          have hmin : min m.length (min data.length 200 - j) = m.length := by omega
          rw [hmin, hslice]
    · right
      rw [decide_eq_true_eq]
      exact hratio
  refine ⟨htext, ?_⟩
  unfold gopher_render_image
  simp only [htext, if_true]

/-! ### Large-image placeholder path -/

/-- With valid dimensions and a successful line allocation the renderer
returns 0 and the rendered lines. -/
theorem render_ascii_art_eq (u : Bool) (buf : List Rgb) (w h : Nat)
    (hw1 : 1 ≤ w) (hw2 : w ≤ 1000) (hh1 : 1 ≤ h) (hh2 : h ≤ 1000) :
    render_ascii_art true u buf w h =
      (0, renderRows u buf w (0, 0) (List.range h)) := by
  unfold render_ascii_art
  rw [if_neg (by omega)]
  rfl

/-- Bounds of the large-image placeholder dimensions: both axes stay in
`[1,32] × [1,16]` for every reported source size. -/
theorem placeholderDims_bounds (ow oh : Nat) (how : 1 ≤ ow) (hoh : 1 ≤ oh) :
    1 ≤ (placeholderDims ow oh).1 ∧ (placeholderDims ow oh).1 ≤ 32 ∧
    1 ≤ (placeholderDims ow oh).2 ∧ (placeholderDims ow oh).2 ≤ 16 := by
  unfold placeholderDims
  dsimp only
  split_ifs with c1 h4 c2 h8
  · exact ⟨by omega, by omega, by omega, by omega⟩
  · have hdlt : 32 * oh / ow < 16 :=
      (Nat.div_lt_iff_lt_mul (by omega : 0 < ow)).mpr (by omega)
    exact ⟨by omega, by omega, by omega, by omega⟩
  · exact ⟨by omega, by omega, by omega, by omega⟩
  · have hdlt : 16 * ow / oh < 8 :=
      (Nat.div_lt_iff_lt_mul (by omega : 0 < oh)).mpr (by omega)
    exact ⟨by omega, by omega, by omega, by omega⟩
  · exact ⟨by omega, by omega, by omega, by omega⟩

/-- C1 amended: when the buffer is not classified as text, the codec
reports dimensions whose RGB memory exceeds the budget, and the
placeholder and line allocations succeed, `gopher_render_image` renders
the synthesized gradient placeholder (`r` scaling with x, `g` with y, `b`
fixed at 128) at the `placeholderDims` resolution — both axes at least 1,
at most 32×16 = 512 pixels, within a third of the budget — and returns
the renderer's success code 0. -/
theorem C1_large_image_placeholder (data : List Nat) (codec : Codec)
    (alloc : AllocOracle) (config : AsciiArtConfig) (lm : Bool)
    (ow oh cc : Nat)
    (htext : looks_like_text_content data = false)
    (hinfo : codec.info = some (ow, oh, cc))
    (how : 1 ≤ ow) (hoh : 1 ≤ oh)
    (hmem : (if lm then 3000000 else 200000) < ow * oh * 3)
    (hba : alloc.bigPlaceholder = true) (hla : alloc.line = true) :
    gopher_render_image data codec alloc config lm =
      ⟨0, some (gradientPlaceholder (placeholderDims ow oh).1 (placeholderDims ow oh).2,
        (placeholderDims ow oh).1, (placeholderDims ow oh).2), false⟩ ∧
    1 ≤ (placeholderDims ow oh).1 ∧ 1 ≤ (placeholderDims ow oh).2 ∧
    (placeholderDims ow oh).1 * (placeholderDims ow oh).2 ≤ 512 ∧
    (placeholderDims ow oh).1 * (placeholderDims ow oh).2 ≤
      (if lm then 3000000 else 200000) / 3 := by
  obtain ⟨hb1, hb2, hb3, hb4⟩ := placeholderDims_bounds ow oh how hoh
  have hprod : (placeholderDims ow oh).1 * (placeholderDims ow oh).2 ≤ 512 := by
    nlinarith
  refine ⟨?_, hb1, hb3, hprod, le_trans hprod (by cases lm <;> norm_num)⟩
  unfold gopher_render_image
  simp only [htext, Bool.false_eq_true, if_false, hinfo, hba, if_true]
  rw [if_pos hmem, hla,
    render_ascii_art_eq config.use_color _ _ _ hb1 (by omega) hb3 (by omega)]

/-! ### Error-handling policy of the decode and resample stages -/

/-- When the content is not text and the reported size fits the budget,
`gopher_render_image` proceeds to the decode-and-render tail. -/
theorem gopher_render_decode_path (data : List Nat) (codec : Codec)
    (alloc : AllocOracle) (config : AsciiArtConfig) (lm : Bool)
    (ow oh cc : Nat)
    (htext : looks_like_text_content data = false)
    (hinfo : codec.info = some (ow, oh, cc))
    (hmem : ow * oh * 3 ≤ (if lm then 3000000 else 200000)) :
    gopher_render_image data codec alloc config lm =
      gopherDecodeAndRender data codec alloc config
        (if lm then 3000000 else 200000) := by
  unfold gopher_render_image
  simp only [htext, Bool.false_eq_true, if_false, hinfo]
  rw [if_neg (not_lt.mpr hmem)]

/-- A resample call whose allocation succeeds never returns NULL. -/
theorem downscale_true_ne_none (src : List Rgb) (sw sh tw th : Nat)
    (opts : ImageProcessOptions) :
    downscale_image_color true src sw sh tw th opts ≠ none := by
  unfold downscale_image_color
  simp

/-- A resample call whose allocation fails returns NULL. -/
theorem downscale_false_eq_none (src : List Rgb) (sw sh tw th : Nat)
    (opts : ImageProcessOptions) :
    downscale_image_color false src sw sh tw th opts = none := rfl

/-- C2 amended: an out-of-memory failure reported by the codec during
decode is always recovered locally — with the substitute allocations
succeeding, the pipeline renders a placeholder (either the 128-capped
gradient built inside `decode_image_to_rgb` and then downscaled, or the
fixed 32×16 gradient of the outer handler) and returns 0; but an
allocation failure in the resample stage is NOT recovered: it is surfaced
to the caller as a fatal `-ENOMEM` with nothing rendered. -/
theorem C2_oom_decode_recovered_resample_fatal :
    (∀ (data : List Nat) (info : Option (Nat × Nat × Nat))
        (config : AsciiArtConfig) (lm : Bool) (ow oh cc : Nat) (dfb : Bool),
      looks_like_text_content data = false →
      info = some (ow, oh, cc) →
      ow * oh * 3 ≤ (if lm then 3000000 else 200000) →
      (gopher_render_image data ⟨info, none, StbiFail.outOfMem⟩
          ⟨true, dfb, true, true, true, true⟩ config lm).retCode = 0 ∧
      (gopher_render_image data ⟨info, none, StbiFail.outOfMem⟩
          ⟨true, dfb, true, true, true, true⟩ config lm).rendered.isSome = true) ∧
    (∀ (data : List Nat) (info : Option (Nat × Nat × Nat))
        (fr : StbiFail) (config : AsciiArtConfig) (lm : Bool)
        (ow oh cc : Nat) (img : List Rgb) (w h : Nat)
        (ba dcf oomp dit lin : Bool),
      looks_like_text_content data = false →
      info = some (ow, oh, cc) →
      ow * oh * 3 ≤ (if lm then 3000000 else 200000) →
      gopher_render_image data ⟨info, some (img, w, h), fr⟩
          ⟨ba, dcf, oomp, false, dit, lin⟩ config lm =
        ⟨-ENOMEM, none, false⟩) := by
  constructor
  · intro data info config lm ow oh cc dfb htext hinfo hmem
    subst hinfo
    rw [gopher_render_decode_path data _ _ config lm ow oh cc htext rfl hmem]
    unfold gopherDecodeAndRender decode_image_to_rgb
    simp only [htext, Bool.false_eq_true, if_false]
    cases dfb with
    | false =>
      simp only [if_true, Bool.false_eq_true, if_false]
      rw [render_ascii_art_eq config.use_color _ 32 16 (by omega) (by omega)
        (by omega) (by omega)]
      exact ⟨rfl, rfl⟩
    | true =>
      simp only [if_true]
      constructor
      · split
        · rename_i hnone
          exact absurd hnone (downscale_true_ne_none _ _ _ _ _ _)
        · rw [render_ascii_art_eq config.use_color _ 40 20 (by omega) (by omega)
            (by omega) (by omega)]
      · split
        · rename_i hnone
          exact absurd hnone (downscale_true_ne_none _ _ _ _ _ _)
        · rfl
  · intro data info fr config lm ow oh cc img w h ba dcf oomp dit lin
      htext hinfo hmem
    subst hinfo
    rw [gopher_render_decode_path data _ _ config lm ow oh cc htext rfl hmem]
    unfold gopherDecodeAndRender decode_image_to_rgb
    simp only [htext, Bool.false_eq_true, if_false]
    split
    · rfl
    · rename_i hsome
      rw [downscale_false_eq_none] at hsome
      exact Option.noConfusion hsome

/-! ### Dithering working-copy allocation failure -/

/-- C10 claim: when the working-copy allocation fails the dithering
routine returns immediately with every pixel unchanged and signals
nothing (void return); the pipeline silently goes on and renders the
undithered, still full-color downscaled buffer, returning success. -/
theorem C10_dither_alloc_failure_silent :
    (∀ (w h : Nat) (img : List Rgb),
      apply_floyd_steinberg_dithering false w h img = img) ∧
    (∀ (data : List Nat) (info : Option (Nat × Nat × Nat)) (fr : StbiFail)
        (config : AsciiArtConfig) (lm : Bool) (ow oh cc : Nat)
        (img : List Rgb) (w h : Nat),
      looks_like_text_content data = false →
      info = some (ow, oh, cc) →
      ow * oh * 3 ≤ (if lm then 3000000 else 200000) →
      config.use_dithering = true →
      ∃ scaled tw th,
        downscale_image_color true img w h 40 20
          ⟨true, true, config.brightness, config.contrast⟩ = some (scaled, tw, th) ∧
        gopher_render_image data ⟨info, some (img, w, h), fr⟩
          ⟨true, true, true, true, false, true⟩ config lm =
          ⟨0, some (scaled, 40, 20), false⟩) := by
  constructor
  · intro w h img
    rfl
  · intro data info fr config lm ow oh cc img w h htext hinfo hmem hdith
    subst hinfo
    rw [gopher_render_decode_path data _ _ config lm ow oh cc htext rfl hmem]
    unfold gopherDecodeAndRender decode_image_to_rgb
    simp only [htext, Bool.false_eq_true, if_false]
    rcases hsome : downscale_image_color true img w h 40 20
        ⟨true, true, config.brightness, config.contrast⟩ with _ | ⟨scaled, a, b⟩
    · exact absurd hsome (downscale_true_ne_none _ _ _ _ _ _)
    · refine ⟨scaled, a, b, rfl, ?_⟩
      dsimp only
      rw [if_pos hdith,
        show apply_floyd_steinberg_dithering false 40 20 scaled = scaled from rfl,
        render_ascii_art_eq config.use_color scaled 40 20 (by omega) (by omega)
          (by omega) (by omega)]

/-! ### Counterexamples and concrete witnesses -/

/-- C1 counterexample: the claim fails as stated.  First instance: a
13-byte all-printable buffer with a valid GIF header (`GIF87a` followed by
dimension bytes 0x41 0x41 0x41 0x41, i.e. 16705×16705, whose RGB memory
far exceeds the 200 KB budget) is classified as text, so
`gopher_render_image` returns `-EINVAL` and renders no placeholder even
though the codec reports oversized native dimensions.  Second instance: a
non-text JPEG-headed buffer with reported 1000×1000 dimensions over
budget, where the placeholder allocation fails — the code falls through to
decoding and returns a decode error instead of a placeholder. -/
theorem C1_counterexample :
    looks_like_text_content [71, 73, 70, 56, 55, 97, 65, 65, 65, 65, 97, 97, 97] = true ∧
    200000 < 16705 * 16705 * 3 ∧
    gopher_render_image [71, 73, 70, 56, 55, 97, 65, 65, 65, 65, 97, 97, 97]
      ⟨some (16705, 16705, 3), none, StbiFail.other⟩
      ⟨true, true, true, true, true, true⟩ ⟨true, true, 1, 1⟩ false =
      ⟨-EINVAL, none, true⟩ ∧
    gopher_render_image [255, 216, 255, 0]
      ⟨some (1000, 1000, 3), none, StbiFail.other⟩
      ⟨false, true, true, true, true, true⟩ ⟨true, true, 1, 1⟩ false =
      ⟨-EINVAL, none, true⟩ := by
  refine ⟨by decide, by decide, by decide, by decide⟩

/-- C1 witness: concrete run of the amended claim on a JPEG-headed buffer
reported as 1000×1000 (3 MB needed against the 200 KB budget) with all
allocations succeeding. -/
theorem C1_witness :
    looks_like_text_content [255, 216, 255, 0] = false ∧
    (gopher_render_image [255, 216, 255, 0]
        ⟨some (1000, 1000, 3), none, StbiFail.other⟩
        ⟨true, true, true, true, true, true⟩ ⟨true, true, 1, 1⟩ false =
      ⟨0, some (gradientPlaceholder (placeholderDims 1000 1000).1
          (placeholderDims 1000 1000).2,
        (placeholderDims 1000 1000).1, (placeholderDims 1000 1000).2), false⟩ ∧
    1 ≤ (placeholderDims 1000 1000).1 ∧ 1 ≤ (placeholderDims 1000 1000).2 ∧
    (placeholderDims 1000 1000).1 * (placeholderDims 1000 1000).2 ≤ 512 ∧
    (placeholderDims 1000 1000).1 * (placeholderDims 1000 1000).2 ≤
      (if false then 3000000 else 200000) / 3) :=
  ⟨by decide,
    C1_large_image_placeholder [255, 216, 255, 0]
      ⟨some (1000, 1000, 3), none, StbiFail.other⟩
      ⟨true, true, true, true, true, true⟩ ⟨true, true, 1, 1⟩ false
      1000 1000 3 (by decide) rfl (by decide) (by decide) (by decide) rfl rfl⟩

/-- C2 counterexample: the claim fails as stated — an out-of-memory
condition in the resample stage (the `downscale_image_color` allocation
failing) is not recovered by a placeholder; `gopher_render_image`
surfaces it as a fatal `-ENOMEM` with nothing rendered, here on a decoded
1×1 image. -/
theorem C2_counterexample :
    gopher_render_image [255, 216, 255, 0]
      ⟨some (1, 1, 3), some ([⟨9, 9, 9⟩], 1, 1), StbiFail.other⟩
      ⟨true, true, true, false, true, true⟩ ⟨true, true, 1, 1⟩ false =
      ⟨-ENOMEM, none, false⟩ := by
  decide

/-- C2 witness: concrete runs of both halves of the amended claim — a
decode-stage out-of-memory recovered to a rendered placeholder with
return code 0, and a resample-stage allocation failure surfaced as
`-ENOMEM`. -/
theorem C2_witness :
    ((gopher_render_image [255, 216, 255, 0]
        ⟨some (2, 2, 3), none, StbiFail.outOfMem⟩
        ⟨true, false, true, true, true, true⟩ ⟨true, true, 1, 1⟩ false).retCode = 0 ∧
      (gopher_render_image [255, 216, 255, 0]
        ⟨some (2, 2, 3), none, StbiFail.outOfMem⟩
        ⟨true, false, true, true, true, true⟩ ⟨true, true, 1, 1⟩ false).rendered.isSome = true) ∧
    gopher_render_image [255, 216, 255, 0]
      ⟨some (2, 2, 3), some ([⟨5, 5, 5⟩, ⟨5, 5, 5⟩, ⟨5, 5, 5⟩, ⟨5, 5, 5⟩], 2, 2),
        StbiFail.other⟩
      ⟨true, true, true, false, true, true⟩ ⟨true, true, 1, 1⟩ false =
      ⟨-ENOMEM, none, false⟩ :=
  ⟨C2_oom_decode_recovered_resample_fatal.1 [255, 216, 255, 0]
      (some (2, 2, 3)) ⟨true, true, 1, 1⟩ false 2 2 3 false
      (by decide) rfl (by decide),
    C2_oom_decode_recovered_resample_fatal.2 [255, 216, 255, 0]
      (some (2, 2, 3)) StbiFail.other ⟨true, true, 1, 1⟩ false 2 2 3
      [⟨5, 5, 5⟩, ⟨5, 5, 5⟩, ⟨5, 5, 5⟩, ⟨5, 5, 5⟩] 2 2
      true true true true true (by decide) rfl (by decide)⟩

/-- C3 witness: the buffer `<!DOCTYPE html>` (which also embeds no image
magic, but the codec oracle even reports image dimensions) is classified
as Text and bypasses the image pipeline. -/
theorem C3_witness :
    looks_like_text_content
      [60, 33, 68, 79, 67, 84, 89, 80, 69, 32, 104, 116, 109, 108, 62] = true ∧
    gopher_render_image
      [60, 33, 68, 79, 67, 84, 89, 80, 69, 32, 104, 116, 109, 108, 62]
      ⟨some (640, 480, 3), some ([⟨1, 2, 3⟩], 1, 1), StbiFail.other⟩
      ⟨true, true, true, true, true, true⟩ ⟨true, true, 1, 1⟩ false =
      ⟨-EINVAL, none, true⟩ :=
  C3_text_bypasses_image_pipeline
    [60, 33, 68, 79, 67, 84, 89, 80, 69, 32, 104, 116, 109, 108, 62]
    ⟨some (640, 480, 3), some ([⟨1, 2, 3⟩], 1, 1), StbiFail.other⟩
    ⟨true, true, true, true, true, true⟩ ⟨true, true, 1, 1⟩ false
    (Or.inl ⟨[60, 33, 68, 79, 67, 84, 89, 80, 69], by decide, 0, by decide, by decide⟩)

/-- C6 witness: a concrete 3×1 palette-valued buffer is left untouched by
dithering. -/
theorem C6_witness :
    (∀ p ∈ [(⟨0, 0, 0⟩ : Rgb), ⟨170, 0, 0⟩, ⟨0, 170, 170⟩], p ∈ terminal_colors) ∧
    apply_floyd_steinberg_dithering true 3 1
      [⟨0, 0, 0⟩, ⟨170, 0, 0⟩, ⟨0, 170, 170⟩] =
      [⟨0, 0, 0⟩, ⟨170, 0, 0⟩, ⟨0, 170, 170⟩] :=
  ⟨by decide,
    C6_dither_palette_identity 3 1 [⟨0, 0, 0⟩, ⟨170, 0, 0⟩, ⟨0, 170, 170⟩] (by decide)⟩

/-- C7 witness: a 1×1 all-black buffer renders as one line of exactly two
space characters. -/
theorem C7_witness :
    (1 : Nat) ≤ 1 ∧
    ((render_ascii_art true true [⟨0, 0, 0⟩] 1 1).1 = 0 ∧
      (render_ascii_art true true [⟨0, 0, 0⟩] 1 1).2.length = 1 ∧
      (∀ y < 1,
        chTokens ((render_ascii_art true true [⟨0, 0, 0⟩] 1 1).2.getD y []) =
          ((List.range 1).map
            (fun x => [(⟨0, 0, 0⟩ : Rgb)].getD (y * 1 + x) ⟨0, 0, 0⟩)).flatMap
            (fun p => [rampChar p, rampChar p]) ∧
        (chTokens ((render_ascii_art true true [⟨0, 0, 0⟩] 1 1).2.getD y [])).length =
          2 * 1) ∧
      rampChar ⟨0, 0, 0⟩ = ' ') ∧
    chTokens ((render_ascii_art true true [⟨0, 0, 0⟩] 1 1).2.getD 0 []) = [' ', ' '] :=
  ⟨le_refl 1,
    C7_renderer_shape [⟨0, 0, 0⟩] 1 1 true (by decide) (by decide) (by decide) (by decide),
    by decide⟩

/-- C8 witness: a 2×1 source resampled to a requested 4×4 with aspect
preservation gives an adjusted 4×2 result, within one pixel-unit of the
source aspect. -/
theorem C8_witness :
    (1 : Nat) ≤ 2 ∧
    ∃ buf rw rh,
      downscale_image_color true [⟨1, 2, 3⟩, ⟨4, 5, 6⟩] 2 1 4 4
        ⟨true, true, 1, 1⟩ = some (buf, rw, rh) ∧
      1 ≤ rw ∧ 1 ≤ rh ∧ rw ≤ 4 ∧ rh ≤ 4 ∧
      ((⟨true, true, 1, 1⟩ : ImageProcessOptions).maintain_aspect_ratio = false →
        rw = 4 ∧ rh = 4) ∧
      ((⟨true, true, 1, 1⟩ : ImageProcessOptions).maintain_aspect_ratio = true →
        ((rw = 4 ∧ rh = 4) ∨
         (rw = 4 ∧ rh * 2 ≤ 4 * 1 + 2 ∧ 4 * 1 ≤ rh * 2 + 2) ∨
         (rh = 4 ∧ rw * 1 ≤ 4 * 2 + 1 ∧ 4 * 2 ≤ rw * 1 + 1))) :=
  ⟨by decide,
    C8_resample_dims [⟨1, 2, 3⟩, ⟨4, 5, 6⟩] 2 1 4 4 ⟨true, true, 1, 1⟩
      (by decide) (by decide) (by decide) (by decide)⟩

/-- C9 witness: concrete minimality of the quantizer at (10, 200, 30). -/
theorem C9_witness :
    (10 : Nat) ≤ 255 ∧
    ((∀ j : Fin 8, color_distance 10 200 30 (rgb_to_terminal_color 10 200 30) ≤
        color_distance 10 200 30 j) ∧
      (∀ j : Fin 8, j < rgb_to_terminal_color 10 200 30 →
        color_distance 10 200 30 j >
          color_distance 10 200 30 (rgb_to_terminal_color 10 200 30))) :=
  ⟨by decide, C9_quantizer_minimal 10 200 30 (by decide) (by decide) (by decide)⟩

/-- C10 witness: concrete runs — dithering with a failed working-copy
allocation is the identity on a 2×2 buffer, and the pipeline with the
dither allocation failing still renders the undithered downscaled buffer
with return code 0. -/
theorem C10_witness :
    apply_floyd_steinberg_dithering false 2 2
      [⟨1, 2, 3⟩, ⟨4, 5, 6⟩, ⟨7, 8, 9⟩, ⟨10, 11, 12⟩] =
      [⟨1, 2, 3⟩, ⟨4, 5, 6⟩, ⟨7, 8, 9⟩, ⟨10, 11, 12⟩] ∧
    ∃ scaled tw th,
      downscale_image_color true [⟨1, 2, 3⟩, ⟨4, 5, 6⟩, ⟨7, 8, 9⟩, ⟨10, 11, 12⟩]
        2 2 40 20 ⟨true, true, 1, 1⟩ = some (scaled, tw, th) ∧
      gopher_render_image [255, 216, 255, 0]
        ⟨some (2, 2, 3), some ([⟨1, 2, 3⟩, ⟨4, 5, 6⟩, ⟨7, 8, 9⟩, ⟨10, 11, 12⟩], 2, 2),
          StbiFail.other⟩
        ⟨true, true, true, true, false, true⟩ ⟨true, true, 1, 1⟩ false =
        ⟨0, some (scaled, 40, 20), false⟩ :=
  ⟨C10_dither_alloc_failure_silent.1 2 2 [⟨1, 2, 3⟩, ⟨4, 5, 6⟩, ⟨7, 8, 9⟩, ⟨10, 11, 12⟩],
    C10_dither_alloc_failure_silent.2 [255, 216, 255, 0] (some (2, 2, 3))
      StbiFail.other ⟨true, true, 1, 1⟩ false 2 2 3
      [⟨1, 2, 3⟩, ⟨4, 5, 6⟩, ⟨7, 8, 9⟩, ⟨10, 11, 12⟩] 2 2
      (by decide) rfl (by decide) rfl⟩
